import Mathlib

/-!
# Verification of reduction-operator semantics (ATen `ReduceOps.cpp`)

Shallow embedding of the numeric and control-flow logic of the reduction
operators implemented in `aten/src/ATen/native/ReduceOps.cpp`:
cumulative max/min scans, the cumulative-product backward formulas, the
all-element variance/std path, argmax/argmin validation, all/any dtype and
degenerate-input handling, nansum dispatch, and cumulative-op degenerate
cases.  Machine floating-point values are modelled exactly: rationals for
finite values, with explicit NaN (and ±Inf where division can produce
them); tensors are modelled by their 1-D slice along the scanned dimension
(a list of elements), or by their shape metadata where only shape-level
control flow is at stake.
-/

namespace ReduceOps

/-- A floating value where only NaN-ness matters besides the numeric value:
a rational, or NaN. -/
inductive FV
  | nan : FV
  | fin : ℚ → FV
  deriving DecidableEq, Repr

/-- `std::isnan`. -/
def FV.isnan : FV → Bool
  | .nan => true
  | .fin _ => false

/-- `std::greater_equal<scalar_t>`: C++ `>=`, false whenever an operand is
NaN (IEEE comparisons with NaN are false). -/
def geOp : FV → FV → Bool
  | .fin a, .fin b => a ≥ b
  | _, _ => false

/-- `std::less_equal<scalar_t>`: C++ `<=`, false whenever an operand is NaN. -/
def leOp : FV → FV → Bool
  | .fin a, .fin b => a ≤ b
  | _, _ => false

/-- The loop body of `cummax_cummin_helper` (ReduceOps.cpp lines 652-667),
specialised to the 1-D slice along the scanned dimension (strides drop out).
State: running extremum `out`, its recorded index `idx`, current position `i`.
For each element `curr`: if `isnan(curr) || (!isnan(out) && op(curr, out))`
then `out`/`idx` update to the current element/position; every position
emits the pair `(out, idx)`. -/
def cummax_cummin_helper (op : FV → FV → Bool) :
    List FV → FV → ℕ → ℕ → List (FV × ℕ)
  | [], _, _, _ => []
  | curr :: rest, out, idx, i =>
    let upd : Bool := curr.isnan || (!out.isnan && op curr out)
    let out' := if upd then curr else out
    let idx' := if upd then i else idx
    (out', idx') :: cummax_cummin_helper op rest out' idx' (i + 1)

/-- `cummax_helper_cpu` (line 669-675): runs the helper with comparator
`std::greater_equal`, starting from `out = self_data[0]`, `idx = 0`. -/
def cummax_helper_cpu (xs : List FV) : List (FV × ℕ) :=
  match xs with
  | [] => []
  | x :: _ => cummax_cummin_helper geOp xs x 0 0

/-- `cummin_helper_cpu` (line 704-710): same with `std::less_equal`. -/
def cummin_helper_cpu (xs : List FV) : List (FV × ℕ) :=
  match xs with
  | [] => []
  | x :: _ => cummax_cummin_helper leOp xs x 0 0

/-! ## Scalar types and the all/any + nansum dtype rules -/

/-- The scalar dtypes relevant to the reduction operators
(`c10::ScalarType`). -/
inductive ScalarType
  | float | double | half | bfloat16 | bool | byte | char | short
  | int | long | complexFloat | complexDouble
  deriving DecidableEq, Repr

/-- `c10::isComplexType`. -/
def isComplexType : ScalarType → Bool
  | .complexFloat => true
  | .complexDouble => true
  | _ => false

/-- `c10::isIntegralType(t, includeBool)`. -/
def isIntegralType (t : ScalarType) (includeBool : Bool) : Bool :=
  match t with
  | .byte | .char | .short | .int | .long => true
  | .bool => includeBool
  | _ => false

/-- `get_result_or_bytebool_dtype` (lines 73-80): a defined result keeps
its dtype; otherwise `kByte` inputs give `kByte`, all others give `kBool`.
`none` models an undefined (caller did not supply an output) result. -/
def get_result_or_bytebool_dtype (self : ScalarType)
    (result : Option ScalarType) : ScalarType :=
  match result with
  | some r => r
  | none => if self = .byte then .byte else .bool

/-- `check_result_is_bytebool` (lines 82-91): a defined result tensor must
have dtype `Bool` or `Byte`, otherwise a TORCH_CHECK error is raised. -/
def check_result_is_bytebool (name : String) (result : Option ScalarType) :
    Except String Unit :=
  match result with
  | some r =>
    if r = ScalarType.bool ∨ r = ScalarType.byte then Except.ok ()
    else Except.error (name ++ " only supports bool tensor for result")
  | none => Except.ok ()

/-- `allany_meta` (lines 99-109) dtype logic: first validate a supplied
output, then resolve the output dtype. -/
def allany_meta_dtype (name : String) (self : ScalarType)
    (result : Option ScalarType) : Except String ScalarType := do
  let _ ← check_result_is_bytebool name result
  pure (get_result_or_bytebool_dtype self result)

/-! ## nansum (lines 1066-1083) -/

/-- NaN-propagating addition of modelled floating values. -/
def fadd : FV → FV → FV
  | .fin a, .fin b => .fin (a + b)
  | _, _ => .nan

/-- Modelled from the spec: the `sum_stub` kernel (registered elsewhere in
the repository) performs a running accumulation of all elements; summing a
NaN produces NaN. 1-D full-reduction slice. -/
def sum_impl (xs : List FV) : FV :=
  xs.foldl fadd (.fin 0)

/-- Modelled from the spec: the `nansum_stub` kernel skips NaN elements
(treats them as 0) in the running accumulation. -/
def nansum_impl (xs : List FV) : FV :=
  (xs.map (fun x => if x.isnan then FV.fin 0 else x)).foldl fadd (.fin 0)

/-- `sum_out` dispatch (lines 1039-1051) for a 1-D full reduction: the sum
kernel over the elements. -/
def sum_out (_st : ScalarType) (xs : List FV) : FV :=
  sum_impl xs

/-- `nansum_out` (lines 1066-1083), 1-D full reduction: complex dtypes are
rejected by `TORCH_CHECK`; integral dtypes (bool included) delegate to
`at::sum_out`; otherwise the NaN-skipping kernel runs. -/
def nansum_out (st : ScalarType) (xs : List FV) : Except String FV :=
  if isComplexType st then
    Except.error "nansum does not support complex inputs"
  else if isIntegralType st true then
    Except.ok (sum_out st xs)
  else
    Except.ok (nansum_impl xs)

/-! ## Dimension wrapping, argmax/argmin validation, cumulative-op
degenerate cases, cumprod-backward path selection -/

/-- Modelled from the spec: `c10::maybe_wrap_dim` — the dimension
canonicalization rule (not part of this file's source): a negative index
counts from the end, the wrapped index must land in `[0, rank)`; a rank-0
tensor is treated as rank 1 for wrapping purposes, so `dim ∈ {-1, 0}` is
accepted on scalars.  Out-of-range dims raise an IndexError. -/
def maybe_wrap_dim (dim : ℤ) (rank : ℕ) : Except String ℕ :=
  let r : ℤ := if rank = 0 then 1 else (rank : ℤ)
  if -r ≤ dim ∧ dim ≤ r - 1 then
    Except.ok (if dim < 0 then (dim + r).toNat else dim.toNat)
  else
    Except.error "Dimension out of range"

/-- Modelled from the spec: `zero_numel_check_dims` (declared in
`ReduceOpsUtils.h`, not part of this file's source) — reducing along a
wrapped dimension that covers zero elements is an error; a rank-0 tensor's
sole dimension covers its one element, so it passes. -/
def zero_numel_check_dims (sizes : List ℕ) (dim : ℕ) (name : String) :
    Except String Unit :=
  if sizes.length = 0 then Except.ok ()
  else if sizes.getD dim 1 = 0 then
    Except.error (name ++ ": Expected reduction dim to have non-zero size.")
  else Except.ok ()

/-- `check_argmax_argmin` (lines 129-141): with a dim, wrap it and require
the reduced dimension non-empty; with no dim, require a non-empty input.
A tensor is modelled by its shape `sizes` (element count = product). -/
def check_argmax_argmin (name : String) (sizes : List ℕ)
    (dim : Option ℤ) : Except String Unit :=
  match dim with
  | some d => do
    let w ← maybe_wrap_dim d sizes.length
    zero_numel_check_dims sizes w name
  | none =>
    if sizes.prod ≠ 0 then Except.ok ()
    else Except.error
      (name ++ ": Expected reduction dim to be specified for input.numel() == 0.")

/-- A 1-D-or-scalar tensor of modelled floating values: rank 0 (scalar) or
rank 1 (its slice along the scanned dimension). -/
inductive Tens
  | scalar : ℚ → Tens
  | vec : List ℚ → Tens
  deriving DecidableEq, Repr

/-- Modelled from the spec: the `cumsum_stub` kernel — inclusive prefix
sums along the scanned dimension. -/
def cumsum_list (xs : List ℚ) : List ℚ :=
  (List.scanl (· + ·) 0 xs).tail

/-- Modelled from the spec: the `cumprod_stub` kernel — inclusive prefix
products along the scanned dimension. -/
def cumprod_list (xs : List ℚ) : List ℚ :=
  (List.scanl (· * ·) 1 xs).tail

/-- `impl_func_cum_ops` (lines 374-390), on the 1-D-or-scalar model:
rank 0 → `result.fill_(self)` (copy the scalar); `numel() == 0` →
`result.zero_()` (every element of the result set to 0); otherwise the
scan kernel runs. -/
def impl_func_cum_ops (stub : List ℚ → List ℚ) : Tens → Tens
  | .scalar v => .scalar v
  | .vec xs =>
    if xs.length = 0 then .vec (xs.map (fun _ => 0))
    else .vec (stub xs)

/-- `cumsum_out` (lines 392-398). -/
def cumsum_out (t : Tens) : Tens :=
  impl_func_cum_ops cumsum_list t

/-- `cumprod_out` (lines 400-406). -/
def cumprod_out (t : Tens) : Tens :=
  impl_func_cum_ops cumprod_list t

/-- The three actions `impl_func_cum_ops` can take, in terms of the shape
metadata alone (shared by cumsum and cumprod, which differ only in the
kernel passed as `stub`): fill with the scalar input, zero-fill, or run
the scan kernel. -/
inductive CumOpAction
  | fillWithSelf
  | zeroFill
  | kernelScan
  deriving DecidableEq, Repr

/-- The branch structure of `impl_func_cum_ops` (lines 382-389) on shape
metadata: rank 0 → fill with self; zero elements → zero-fill (NOT a fill
with the multiplicative identity 1, also for cumprod); otherwise kernel. -/
def impl_func_cum_ops_action (rank numel : ℕ) : CumOpAction :=
  if rank = 0 then .fillWithSelf
  else if numel = 0 then .zeroFill
  else .kernelScan

/-! ## Whole-tensor variance/std on CPU (lines 1513-1561) -/

/-- An IEEE-754-style double for the variance path: NaN, ±Inf, or an exact
finite value (rational). -/
inductive DVal
  | nan
  | inf
  | ninf
  | fin : ℚ → DVal
  deriving DecidableEq, Repr

/-- IEEE-754 division on modelled doubles: a finite value divided by zero
gives NaN when the numerator is 0 and ±Inf (by sign) otherwise; NaN
propagates; finite/infinite is 0; infinite/finite keeps sign; Inf/Inf is
NaN. -/
def ddiv : DVal → DVal → DVal
  | .nan, _ => .nan
  | _, .nan => .nan
  | .fin a, .fin b =>
    if b = 0 then (if a = 0 then .nan else if 0 < a then .inf else .ninf)
    else .fin (a / b)
  | .fin _, .inf => .fin 0
  | .fin _, .ninf => .fin 0
  | .inf, .fin b => if 0 ≤ b then .inf else .ninf
  | .ninf, .fin b => if 0 ≤ b then .ninf else .inf
  | .inf, _ => .nan
  | .ninf, _ => .nan

/-- `std_var_all_cpu` (lines 1513-1561), the all-element CPU variance:
`mean = self.mean()`, `sum_dx2 = ((x - mean)^2).sum()` (a parallel reduce
with associative `+`, exact here), result
`sum_dx2 / max(int64_t{0}, numel - correction)` with IEEE division (the
source annotates the division `__ubsan_ignore_float_divide_by_zero__`).
The final optional `std::sqrt` (std) maps NaN to NaN and +Inf to +Inf, so
the NaN/Inf classification below is unchanged by it and it is omitted. -/
def std_var_all_cpu (xs : List ℚ) (correction : ℤ) : DVal :=
  let mean : ℚ := xs.sum / (xs.length : ℚ)
  let sum_dx2 : ℚ := (xs.map (fun x => (x - mean) * (x - mean))).sum
  ddiv (DVal.fin sum_dx2)
    (DVal.fin ((max 0 ((xs.length : ℤ) - correction) : ℤ) : ℚ))

/-- The paths `cumprod_backward` (lines 412-631) can take. -/
inductive CumprodBwdPath
  | returnGrad
  | closedForm
  | maskedLinear
  | quadratic
  deriving DecidableEq, Repr

/-- The branch structure of `cumprod_backward` (lines 500-526) on shape
metadata: `input.numel() <= 1` → return `grad` unchanged (before the dim is
even wrapped); then wrap `dim`; size-1 scanned dimension → return `grad`
unchanged; then, if no element is zero → the O(n) closed form; with zeros,
gradient mode off → the masked O(n) path, on → the O(n²) omitted-products
path. -/
def cumprod_backward_path (sizes : List ℕ) (dim : ℤ)
    (hasZero gradMode : Bool) : Except String CumprodBwdPath :=
  if sizes.prod ≤ 1 then Except.ok .returnGrad
  else
    match maybe_wrap_dim dim sizes.length with
    | Except.error e => Except.error e
    | Except.ok w =>
      if sizes.getD w 0 = 1 then Except.ok .returnGrad
      else if hasZero = false then Except.ok .closedForm
      else if gradMode = false then Except.ok .maskedLinear
      else Except.ok .quadratic

/-! ## cumprod backward: O(n) closed form vs O(n²) omitted products
(lines 512-519 and 580-628)

A 1-D slice of length `n` along the scanned dimension, entries given by
`x g : ℕ → ℚ` on positions `0, …, n-1` (real dtype, so `conj` is the
identity; exact arithmetic, so "agreement to floating tolerance" becomes
exact equality). -/

/-- `cumprod` of the input along the scanned dimension at position `j`:
the forward output `y_j = ∏_{i ≤ j} x_i`. -/
def cumprodAt (x : ℕ → ℚ) (j : ℕ) : ℚ :=
  ∏ i ∈ Finset.range (j + 1), x i

/-- `reversed_cumsum` (lines 408-410): `w.flip(dim).cumsum(dim).flip(dim)`
— entry `k` is the suffix sum `∑_{k ≤ j < n} w_j`. -/
def reversed_cumsum (n : ℕ) (w : ℕ → ℚ) (k : ℕ) : ℚ :=
  ∑ j ∈ Finset.Ico k n, w j

/-- The O(n) no-zeros closed form (lines 515-518):
`reversed_cumsum(output_conj * grad, dim).div(input_conj)` at position `k`. -/
def cumprod_backward_closed (n : ℕ) (x g : ℕ → ℚ) (k : ℕ) : ℚ :=
  reversed_cumsum n (fun j => cumprodAt x j * g j) k / x k

/-- `prods_until_k` (lines 612, 615):
`at::prod(input_conj.slice(dim, 0, k))` = `∏_{i < k} x_i`. -/
def prods_until (x : ℕ → ℚ) (k : ℕ) : ℚ :=
  ∏ i ∈ Finset.range k, x i

/-- The `omitted_products` entry for target position `j ≥ k` in iteration
`k` of the O(n²) path (lines 602-619): position `j = k` holds
`prods_until_k` (the `ones` tensor when `k = 0`, prepended by `at::cat`);
positions `j > k` hold `prods_until_k * cumprod(input.slice(dim, k+1))[j]`,
i.e. `prods_until_k * ∏_{k+1 ≤ i ≤ j} x_i`.  One uniform formula covering
the code's three branches `k = 0`, `0 < k < n-1`, `k = n-1` (for `k = 0`
the empty product `prods_until 0 = 1` is the `ones` entry). -/
def omitted_products (x : ℕ → ℚ) (k j : ℕ) : ℚ :=
  if j = k then prods_until x k
  else prods_until x k * ∏ i ∈ Finset.Icc (k + 1) j, x i

/-- Iteration `k` of the O(n²) fallback loop (lines 607-628):
`grad_input.select(dim, k) = at::sum(grad.slice(dim, k) * omitted_products)`
= `∑_{k ≤ j < n} g_j · omitted_products(k, j)`. -/
def cumprod_backward_quadratic (n : ℕ) (x g : ℕ → ℚ) (k : ℕ) : ℚ :=
  ∑ j ∈ Finset.Ico k n, g j * omitted_products x k j

/-! ## all/any degenerate inputs and fast path (lines 1411-1444) -/

/-- The observable outcome of `allany_impl`: the result value of a full
reduction, together with whether a full iteration plan
(`get_allany_iter`) was built. -/
structure AllAnyOut where
  value : Bool
  builtIterPlan : Bool
  deriving DecidableEq, Repr

/-- `allany_impl` (lines 1411-1426), full reduction over elements of an
arbitrary dtype read through `toBool` (`self.item().toBool()`):
`numel() == 0` → `result.fill_(identity)`; `numel() == 1` →
`result.fill_(self.item().toBool())`, a fast path that builds no iteration
plan; otherwise `get_allany_iter` builds the full iteration plan and the
kernel runs (the and_stub/or_stub kernels are registered elsewhere in the
repository; modelled from the spec: a short-circuit-style boolean
reduction with the operator's identity). -/
def allany_impl {α : Type} (identity : Bool) (comb : Bool → Bool → Bool)
    (toBool : α → Bool) (xs : List α) : AllAnyOut :=
  match xs with
  | [] => ⟨identity, false⟩
  | [x] => ⟨toBool x, false⟩
  | xs => ⟨xs.foldr (fun a acc => comb (toBool a) acc) identity, true⟩

/-- `all_all_out` (lines 1433-1435): `allany_impl<1>` with the AND kernel. -/
def all_all_out {α : Type} (toBool : α → Bool) (xs : List α) : AllAnyOut :=
  allany_impl true (fun a b => a && b) toBool xs

/-- `any_all_out` (lines 1442-1444): `allany_impl<0>` with the OR kernel. -/
def any_all_out {α : Type} (toBool : α → Bool) (xs : List α) : AllAnyOut :=
  allany_impl false (fun a b => a || b) toBool xs

/-! ## Theorems -/

/-- A list of squares sums to zero exactly when every entry equals the
reference point. -/
theorem sum_sq_eq_zero_iff (m : ℚ) (xs : List ℚ) :
    (xs.map (fun x => (x - m) * (x - m))).sum = 0 ↔ ∀ x ∈ xs, x = m := by
  induction xs with
  | nil => simp
  | cons a t ih =>
    simp only [List.map_cons, List.sum_cons, List.mem_cons]
    have h1 : 0 ≤ (a - m) * (a - m) := mul_self_nonneg _
    have h2 : 0 ≤ (t.map (fun x => (x - m) * (x - m))).sum := by
      apply List.sum_nonneg
      intro y hy
      obtain ⟨x, _, rfl⟩ := List.mem_map.1 hy
      exact mul_self_nonneg _
    constructor
    · intro h
      obtain ⟨ha, ht⟩ := (add_eq_zero_iff_of_nonneg h1 h2).1 h
      intro x hx
      rcases hx with rfl | hx
      · exact sub_eq_zero.1 (mul_self_eq_zero.1 ha)
      · exact (ih.1 ht) x hx
    · intro h
      have ha : a = m := h a (Or.inl rfl)
      have ht : ∀ x ∈ t, x = m := fun x hx => h x (Or.inr hx)
      rw [ha, sub_self, mul_zero, ih.2 ht, add_zero]

/-- The omitted-products entry is the product over all positions `≤ j`
other than `k`. -/
theorem omitted_products_eq_prod_erase (x : ℕ → ℚ) {k j : ℕ} (hkj : k ≤ j) :
    omitted_products x k j = ∏ i ∈ (Finset.range (j + 1)).erase k, x i := by
  unfold omitted_products prods_until
  by_cases h : j = k
  · subst h
    rw [if_pos rfl]
    congr 1
    rw [Finset.range_succ, Finset.erase_insert (by simp)]
  · rw [if_neg h]
    have hset : (Finset.range (j + 1)).erase k =
        Finset.range k ∪ Finset.Icc (k + 1) j := by
      ext i
      simp only [Finset.mem_erase, Finset.mem_range, Finset.mem_union,
        Finset.mem_Icc]
      omega
    rw [hset, Finset.prod_union]
    apply Finset.disjoint_left.2
    intro i hi hi2
    simp only [Finset.mem_range] at hi
    simp only [Finset.mem_Icc] at hi2
    omega

/-- C1 counterexample: the claim predicts `cummax` on `[1, 1]` yields
indices `[0, 0]` (ties keep the earliest index).  The code's comparator is
`std::greater_equal`, so the tie at position 1 DOES update the index: the
indices output is `[0, 1]`, not `[0, 0]`. -/
theorem cummax_tie_keeps_earliest_index_counterexample :
    (cummax_helper_cpu [FV.fin 1, FV.fin 1]).map Prod.snd = [0, 1] ∧
      ([0, 1] : List ℕ) ≠ [0, 0] := by
  constructor
  · rfl
  · decide

/-- C1 (amended): in a cummax (resp. cummin) scan, when the current element
compares EQUAL to the running extremum (both non-NaN), the recorded index
DOES update to the current position — the comparator is `>=` (resp. `<=`),
so the indices output keeps the LATEST position attaining the running
extremum.  Stated on an arbitrary scan state: scanning a current element
whose value `v` equals the running extremum emits the pair `(v, i)` at that
position, for any previously recorded index and both comparators. -/
theorem cummax_cummin_tie_updates_index (v : ℚ) (rest : List FV)
    (idx i : ℕ) :
    (cummax_cummin_helper geOp (FV.fin v :: rest) (FV.fin v) idx i).head? =
      some (FV.fin v, i) ∧
    (cummax_cummin_helper leOp (FV.fin v :: rest) (FV.fin v) idx i).head? =
      some (FV.fin v, i) := by
  constructor <;>
    simp [cummax_cummin_helper, geOp, leOp, FV.isnan]

/-- C2: for a slice with no zero element, the O(n) closed form
`reversed_cumsum(output · grad) / input` agrees exactly (exact rational
arithmetic models "to floating tolerance") with the O(n²) omitted-products
fallback at every position `k`. -/
theorem cumprod_backward_closed_eq_quadratic (n : ℕ) (x g : ℕ → ℚ)
    (hx : ∀ i < n, x i ≠ 0) (k : ℕ) (hk : k < n) :
    cumprod_backward_closed n x g k = cumprod_backward_quadratic n x g k := by
  unfold cumprod_backward_closed cumprod_backward_quadratic reversed_cumsum
  rw [Finset.sum_div]
  apply Finset.sum_congr rfl
  intro j hj
  obtain ⟨hkj, hjn⟩ := Finset.mem_Ico.1 hj
  have hk_mem : k ∈ Finset.range (j + 1) := Finset.mem_range.2 (by omega)
  have hfac : cumprodAt x j =
      x k * ∏ i ∈ (Finset.range (j + 1)).erase k, x i :=
    (Finset.mul_prod_erase _ _ hk_mem).symm
  rw [omitted_products_eq_prod_erase x hkj, hfac]
  have hxk : x k ≠ 0 := hx k hk
  field_simp
  ring

/-- C2 witness. -/
theorem cumprod_backward_closed_eq_quadratic_witness :
    (∀ i < 2, (fun _ : ℕ => (2 : ℚ)) i ≠ 0) ∧ (0 : ℕ) < 2 ∧
      cumprod_backward_closed 2 (fun _ => (2 : ℚ)) (fun _ => 1) 0 =
        cumprod_backward_quadratic 2 (fun _ => (2 : ℚ)) (fun _ => 1) 0 :=
  ⟨fun _ _ => two_ne_zero, by decide,
    cumprod_backward_closed_eq_quadratic 2 _ _ (fun _ _ => two_ne_zero) 0
      (by decide)⟩

/-- C8: with no caller-supplied output, all/any resolve the result dtype to
`Byte` exactly for `Byte` inputs and `Bool` otherwise; a supplied output is
accepted exactly when its dtype is `Bool` or `Byte`. -/
theorem allany_result_dtype_rule :
    (∀ st : ScalarType,
      get_result_or_bytebool_dtype st none =
        (if st = ScalarType.byte then ScalarType.byte else ScalarType.bool)) ∧
    (∀ (name : String) (st : ScalarType) (r : ScalarType),
      (allany_meta_dtype name st (some r)).isOk = true ↔
        (r = ScalarType.bool ∨ r = ScalarType.byte)) := by
  refine ⟨fun st => rfl, fun name st r => ?_⟩
  by_cases h : r = ScalarType.bool ∨ r = ScalarType.byte <;>
    simp [allany_meta_dtype, check_result_is_bytebool, h, Except.isOk,
      Except.toBool, bind, Except.bind, pure, Except.pure]

/-- C7 counterexample: the claim says nansum succeeds on complex inputs
like sum does; the code raises "nansum does not support complex inputs"
for every complex dtype — here on a concrete one-element complex input. -/
theorem nansum_complex_succeeds_counterexample :
    nansum_out ScalarType.complexFloat [FV.fin 1] =
      Except.error "nansum does not support complex inputs" ∧
    ∀ v : FV, nansum_out ScalarType.complexFloat [FV.fin 1] ≠ Except.ok v := by
  constructor
  · rfl
  · intro v h
    simp [nansum_out, isComplexType] at h

/-- C7 (amended): nansum REJECTS every complex-dtype input with the error
"nansum does not support complex inputs" (it does not sum complex inputs
like sum does); for non-complex, non-integral (floating) dtypes it runs the
NaN-skipping kernel, which treats NaN elements as 0. -/
theorem nansum_complex_rejected (st : ScalarType) (xs : List FV)
    (h : isComplexType st = true) :
    nansum_out st xs = Except.error "nansum does not support complex inputs" := by
  simp [nansum_out, h]

/-- C7 witness. -/
theorem nansum_complex_rejected_witness :
    isComplexType ScalarType.complexDouble = true ∧
      nansum_out ScalarType.complexDouble [FV.nan, FV.fin 2] =
        Except.error "nansum does not support complex inputs" :=
  ⟨by decide, nansum_complex_rejected ScalarType.complexDouble _ (by decide)⟩

/-- C9: for every integral or boolean dtype, `nansum_out` delegates to (and
so returns exactly the result of) `at::sum_out` with the same arguments;
moreover the NaN-skipping accumulation agrees with the plain sum on any
slice containing no NaN (integral data cannot hold NaN). -/
theorem nansum_integral_eq_sum (st : ScalarType) (xs : List FV)
    (h : isIntegralType st true = true) :
    nansum_out st xs = Except.ok (sum_out st xs) ∧
      ((∀ x ∈ xs, x.isnan = false) → nansum_impl xs = sum_impl xs) := by
  constructor
  · have hc : isComplexType st = false := by
      cases st <;> simp_all [isComplexType, isIntegralType]
    simp [nansum_out, hc, h]
  · intro hnan
    unfold nansum_impl sum_impl
    congr 1
    calc xs.map (fun x => if x.isnan then FV.fin 0 else x)
        = xs.map id := by
          apply List.map_congr_left
          intro x hx
          simp [hnan x hx]
      _ = xs := List.map_id xs

/-- C4: argmax/argmin input validation errors exactly when (a) no dim is
given and the input has zero elements, or (b) a dim is given (and wraps
successfully) and the reduction along the wrapped dimension covers zero
elements — i.e. the input has rank ≥ 1 and that dimension has size 0 (a
rank-0 scalar's reduction covers its one element, so it passes); all other
inputs pass the check. -/
theorem argmax_argmin_error_iff (name : String) (sizes : List ℕ) :
    ((check_argmax_argmin name sizes none).isOk = true ↔ sizes.prod ≠ 0) ∧
    (∀ (d : ℤ) (w : ℕ), maybe_wrap_dim d sizes.length = Except.ok w →
      ((check_argmax_argmin name sizes (some d)).isOk = true ↔
        (sizes.length = 0 ∨ sizes.getD w 1 ≠ 0))) := by
  constructor
  · by_cases h : sizes.prod = 0 <;>
      simp [check_argmax_argmin, h, Except.isOk, Except.toBool]
  · intro d w hw
    have hred : check_argmax_argmin name sizes (some d) =
        zero_numel_check_dims sizes w name := by
      simp [check_argmax_argmin, hw, bind, Except.bind]
    rw [hred]
    by_cases h0 : sizes.length = 0
    · simp [zero_numel_check_dims, h0, Except.isOk, Except.toBool]
    · by_cases hz : sizes.getD w 1 = 0 <;>
      · simp only [List.getD, List.get?_eq_getElem?] at hz
        simp [zero_numel_check_dims, h0, hz, Except.isOk, Except.toBool]

/-- C4 witness. -/
theorem argmax_argmin_error_iff_witness :
    maybe_wrap_dim 0 2 = Except.ok 0 ∧
      ((check_argmax_argmin "argmax()" [0, 2] (some 0)).isOk = true ↔
        (([0, 2] : List ℕ).length = 0 ∨ ([0, 2] : List ℕ).getD 0 1 ≠ 0)) :=
  ⟨by rfl,
    (argmax_argmin_error_iff "argmax()" [0, 2]).2 0 0 (by rfl)⟩

/-- C5: on an input with zero elements, `all` returns true and `any`
returns false (the operators' identities), and on an input with exactly
one element both return that element's boolean value — in all four cases
through the fast path that builds no full iteration plan. -/
theorem allany_empty_and_singleton {α : Type} (toBool : α → Bool) (x : α) :
    all_all_out toBool ([] : List α) = ⟨true, false⟩ ∧
    any_all_out toBool ([] : List α) = ⟨false, false⟩ ∧
    all_all_out toBool [x] = ⟨toBool x, false⟩ ∧
    any_all_out toBool [x] = ⟨toBool x, false⟩ :=
  ⟨rfl, rfl, rfl, rfl⟩

/-- C6: cumsum and cumprod copy a rank-0 (scalar) input to the output
unchanged; an input of rank ≥ 1 with zero elements takes the zero-fill
branch of the shared `impl_func_cum_ops` — for both operators, including
cumprod (the branch writes zeros, not the multiplicative identity 1) —
and on the 1-D model produces the (empty) zero-filled output. -/
theorem cum_ops_degenerate_cases (v : ℚ) (rank numel : ℕ)
    (hr : rank ≠ 0) (hn : numel = 0) :
    cumsum_out (Tens.scalar v) = Tens.scalar v ∧
    cumprod_out (Tens.scalar v) = Tens.scalar v ∧
    cumsum_out (Tens.vec []) = Tens.vec (([] : List ℚ).map (fun _ => 0)) ∧
    cumprod_out (Tens.vec []) = Tens.vec (([] : List ℚ).map (fun _ => 0)) ∧
    impl_func_cum_ops_action rank numel = CumOpAction.zeroFill := by
  refine ⟨rfl, rfl, rfl, rfl, ?_⟩
  simp [impl_func_cum_ops_action, hr, hn]

/-- C6 witness. -/
theorem cum_ops_degenerate_cases_witness :
    (1 ≠ 0 ∧ (0 : ℕ) = 0) ∧
      impl_func_cum_ops_action 1 0 = CumOpAction.zeroFill :=
  ⟨⟨by decide, rfl⟩, (cum_ops_degenerate_cases 0 1 0 (by decide) rfl).2.2.2.2⟩

/-- C10: `cumprod_backward` takes the `return grad;` early-exit (grad
returned unchanged) whenever the input has at most one element — checked
before the dim is even wrapped — or the scanned dimension after wrapping
has size 1, for every value of the has-zeros test and of gradient mode. -/
theorem cumprod_backward_trivial_returns_grad (sizes : List ℕ) (dim : ℤ)
    (w : ℕ)
    (h : sizes.prod ≤ 1 ∨
      (maybe_wrap_dim dim sizes.length = Except.ok w ∧ sizes.getD w 0 = 1)) :
    ∀ hasZero gradMode : Bool,
      cumprod_backward_path sizes dim hasZero gradMode =
        Except.ok CumprodBwdPath.returnGrad := by
  intro hasZero gradMode
  unfold cumprod_backward_path
  rcases h with h | ⟨hw, hs⟩
  · rw [if_pos h]
  · by_cases hp : sizes.prod ≤ 1
    · rw [if_pos hp]
    · rw [if_neg hp, hw]
      simp only [List.getD, List.get?_eq_getElem?] at hs
      simp [hs]

/-- C10 witness. -/
theorem cumprod_backward_trivial_returns_grad_witness :
    (([2, 1] : List ℕ).prod ≤ 1 ∨
      (maybe_wrap_dim 1 2 = Except.ok 1 ∧ ([2, 1] : List ℕ).getD 1 0 = 1)) ∧
      cumprod_backward_path [2, 1] 1 true true =
        Except.ok CumprodBwdPath.returnGrad :=
  ⟨Or.inr ⟨by rfl, by rfl⟩,
    cumprod_backward_trivial_returns_grad [2, 1] 1 1
      (Or.inr ⟨by rfl, by rfl⟩) true true⟩

/-- C3 counterexample: the claim says a zero divisor (correction ≥ N)
yields NaN.  For the non-constant input `[0, 1]` with `correction = 2`
(so `N = 2 ≤ correction`, divisor `max(0, N - correction) = 0`) the sum of
squared deviations is 1/2 > 0, and IEEE division gives +Inf, not NaN. -/
theorem var_zero_divisor_nan_counterexample :
    std_var_all_cpu [0, 1] 2 = DVal.inf ∧ DVal.inf ≠ DVal.nan := by
  constructor
  · norm_num [std_var_all_cpu, ddiv]
  · decide

/-- C3 (amended): for var and std over a non-empty input of N elements with
integer correction, the divisor is `max(0, N − correction)` (this is the
modelled divisor by construction); when that divisor is zero (correction ≥
N), the result is never a raised division error but a NaN or +Inf value:
NaN exactly when the sum of squared deviations is zero, i.e. every element
equals the mean (a constant input), and +Inf otherwise. -/
theorem var_zero_divisor_nan_or_inf (xs : List ℚ) (correction : ℤ)
    (_hne : xs ≠ []) (hc : (xs.length : ℤ) ≤ correction) :
    (std_var_all_cpu xs correction = DVal.nan ∨
      std_var_all_cpu xs correction = DVal.inf) ∧
    (std_var_all_cpu xs correction = DVal.nan ↔
      ∀ x ∈ xs, x = xs.sum / (xs.length : ℚ)) := by
  have hdiv : max 0 ((xs.length : ℤ) - correction) = 0 := by omega
  set m : ℚ := xs.sum / (xs.length : ℚ) with hm
  set s : ℚ := (xs.map (fun x => (x - m) * (x - m))).sum with hs
  have hs0 : 0 ≤ s := by
    apply List.sum_nonneg
    intro y hy
    obtain ⟨x, _, rfl⟩ := List.mem_map.1 hy
    exact mul_self_nonneg _
  have hred : std_var_all_cpu xs correction =
      ddiv (DVal.fin s)
        (DVal.fin ((max 0 ((xs.length : ℤ) - correction) : ℤ) : ℚ)) := by
    rw [hs, hm]
    rfl
  have hval : std_var_all_cpu xs correction =
      (if s = 0 then DVal.nan else DVal.inf) := by
    rw [hred, hdiv, Int.cast_zero]
    by_cases h : s = 0
    · simp [ddiv, h]
    · have hpos : 0 < s := lt_of_le_of_ne hs0 (Ne.symm h)
      simp [ddiv, h, hpos]
  rw [hval]
  constructor
  · by_cases h : s = 0
    · exact Or.inl (by rw [if_pos h])
    · exact Or.inr (by rw [if_neg h])
  · by_cases h : s = 0
    · rw [if_pos h]
      simp only [true_iff]
      exact (sum_sq_eq_zero_iff m xs).1 h
    · rw [if_neg h]
      constructor
      · intro hcontra
        exact absurd hcontra (by decide)
      · intro hall
        exact absurd ((sum_sq_eq_zero_iff m xs).2 hall) h

/-- C3 witness. -/
theorem var_zero_divisor_nan_or_inf_witness :
    (([1, 1] : List ℚ) ≠ [] ∧ (([1, 1] : List ℚ).length : ℤ) ≤ 2) ∧
      ((std_var_all_cpu [1, 1] 2 = DVal.nan ∨
          std_var_all_cpu [1, 1] 2 = DVal.inf) ∧
        (std_var_all_cpu [1, 1] 2 = DVal.nan ↔
          ∀ x ∈ ([1, 1] : List ℚ),
            x = ([1, 1] : List ℚ).sum / ((([1, 1] : List ℚ).length : ℕ) : ℚ))) :=
  ⟨⟨by decide, by decide⟩,
    var_zero_divisor_nan_or_inf [1, 1] 2 (by decide) (by decide)⟩

/-- C9 witness. -/
theorem nansum_integral_eq_sum_witness :
    isIntegralType ScalarType.long true = true ∧
      (nansum_out ScalarType.long [FV.fin 3, FV.fin 4] =
          Except.ok (sum_out ScalarType.long [FV.fin 3, FV.fin 4]) ∧
        ((∀ x ∈ [FV.fin 3, FV.fin 4], x.isnan = false) →
          nansum_impl [FV.fin 3, FV.fin 4] = sum_impl [FV.fin 3, FV.fin 4])) :=
  ⟨by decide, nansum_integral_eq_sum ScalarType.long _ (by decide)⟩

end ReduceOps
